import Mathlib

/-!
Shallow embedding of the consensus node in `src/src/nodes/node.ts`.

The node exchanges `proposal` and `vote` messages, tallies them per round in
`messageLog`, and runs `runConsensusProtocol` once per round: propose,
wait, tally proposals into a candidate value, vote, wait, then decide or
advance.  The embedding models the per-round tallies as partial maps
(absent round entries are `none`, mirroring `undefined` in JavaScript, where
reading a field of `undefined` throws — modelled by `Option`-valued
operations), and models one invocation of `runConsensusProtocol` as a pure
step function parameterised by the lists of messages delivered to this node
during the two settling waits.
-/

namespace NodeSpec

/-- The binary consensus values `0` and `1`, plus the `"?"` sentinel that
exists only as a tally bucket placeholder. -/
inductive Value where
  | v0
  | v1
  | vq
deriving DecidableEq, Repr

/-- `(round % 2) as Value` from the source. -/
def roundParity (r : Nat) : Value :=
  if r % 2 = 1 then Value.v1 else Value.v0

/-- One per-round tally bucket `{ "0": _, "1": _, "?": _ }`. -/
structure Bucket where
  c0 : Nat
  c1 : Nat
  cq : Nat
deriving DecidableEq, Repr

def zeroBucket : Bucket := ⟨0, 0, 0⟩

def Bucket.get (b : Bucket) : Value → Nat
  | Value.v0 => b.c0
  | Value.v1 => b.c1
  | Value.vq => b.cq

def Bucket.inc (b : Bucket) : Value → Bucket
  | Value.v0 => { b with c0 := b.c0 + 1 }
  | Value.v1 => { b with c1 := b.c1 + 1 }
  | Value.vq => { b with cq := b.cq + 1 }

/-- `{ [round: number]: { [value: string]: number } }`: a partial map from
round to bucket; `none` is an absent (`undefined`) entry. -/
def TallyMap : Type := Nat → Option Bucket

/-- The two tally maps of `messageLog`. -/
structure MessageLog where
  proposals : TallyMap
  votes : TallyMap

def emptyLog : MessageLog := ⟨fun _ => none, fun _ => none⟩

inductive MsgType where
  | proposal
  | vote
deriving DecidableEq, Repr

/-- `ConsensusMessage` from the source. -/
structure ConsensusMessage where
  type : MsgType
  value : Value
  round : Nat
  sender : Nat
deriving DecidableEq, Repr

/-- `nodeState` from the source: `x`, `decided`, `k` are nullable. -/
structure NodeState where
  killed : Bool
  x : Option Value
  decided : Option Bool
  k : Option Nat
deriving DecidableEq, Repr

/-- The initial `nodeState` of the source. -/
def initState (isFaulty : Bool) (initialValue : Value) : NodeState :=
  { killed := false
    x := if isFaulty then none else some initialValue
    decided := if isFaulty then none else some false
    k := if isFaulty then none else some 1 }

/-- `if (!t[round]) t[round] = { "0": 0, "1": 0, "?": 0 }` on one map. -/
def initTally (t : TallyMap) (round : Nat) : TallyMap :=
  match t round with
  | some _ => t
  | none => fun r => if r = round then some zeroBucket else t r

/-- `initializeRoundTracking` from the source: seed both maps for `round`. -/
def initializeRoundTracking (log : MessageLog) (round : Nat) : MessageLog :=
  { proposals := initTally log.proposals round
    votes := initTally log.votes round }

/-- `t[round][value]++`: `none` when the round entry is absent (in
JavaScript this access would throw on `undefined`). -/
def incTally (t : TallyMap) (round : Nat) (v : Value) : Option TallyMap :=
  match t round with
  | none => none
  | some b => some (fun r => if r = round then some (b.inc v) else t r)

/-- The `/message` handler: discard when killed or faulty, otherwise
initialize the round's buckets and increment the matching counter. -/
def deliver (killed isFaulty : Bool) (m : ConsensusMessage) (log : MessageLog) :
    Option MessageLog :=
  if killed = true ∨ isFaulty = true then some log
  else
    let log1 := initializeRoundTracking log m.round
    match m.type with
    | MsgType.proposal =>
      (incTally log1.proposals m.round m.value).map fun p => { log1 with proposals := p }
    | MsgType.vote =>
      (incTally log1.votes m.round m.value).map fun vt => { log1 with votes := vt }

/-- A sequence of inbound deliveries to a live non-faulty node. -/
def applyMsgs : List ConsensusMessage → MessageLog → Option MessageLog
  | [], log => some log
  | m :: ms, log =>
    match deliver false false m log with
    | none => none
    | some log' => applyMsgs ms log'

/-- `determineConsensusValue` from the source: strict-majority proposal
value, tie-break `(round % 2)`.  `none` when the round entry is absent. -/
def determineConsensusValue (log : MessageLog) (round : Nat) : Option Value :=
  match log.proposals round with
  | none => none
  | some p =>
    some (if p.c1 < p.c0 then Value.v0
          else if p.c0 < p.c1 then Value.v1
          else roundParity round)

/-- `checkFinalDecision` from the source:
`(votes["0"] >= floor(N/2) || votes["1"] >= floor(N/2)) && round >= 2`. -/
def checkFinalDecision (N : Nat) (log : MessageLog) (round : Nat) : Option Bool :=
  match log.votes round with
  | none => none
  | some b =>
    some ((decide (N / 2 ≤ b.c0) || decide (N / 2 ≤ b.c1)) && decide (2 ≤ round))

/-- Outcome of one `broadcastMessage` call. `delivered t` means the
readiness gate opened at poll step `t` and delivery to the peers was
attempted; `noop` and `abandoned` perform no delivery attempt. -/
inductive BroadcastOutcome where
  | noop
  | abandoned
  | delivered (atStep : Nat)
deriving DecidableEq, Repr

/-- The `while (!nodesAreReady())` poll loop: at step `t` check readiness;
if not ready, sleep and abandon if the node was killed meanwhile. `fuel`
bounds the number of polls modelled (`none` = still waiting). -/
def broadcastLoop (killed ready : Nat → Bool) : Nat → Nat → Option BroadcastOutcome
  | 0, _ => none
  | fuel + 1, t =>
    if ready t = true then some (BroadcastOutcome.delivered t)
    else if killed (t + 1) = true then some BroadcastOutcome.abandoned
    else broadcastLoop killed ready fuel (t + 1)

/-- `broadcastMessage` from the source: no-op for killed or faulty nodes,
otherwise wait on the readiness gate (abandoning if killed) and then
attempt delivery to every peer.  `killed t` / `ready t` give the two
predicates as observed at poll step `t` (`t = 0` is the entry check). -/
def broadcastMessage (isFaulty : Bool) (killed ready : Nat → Bool) (fuel : Nat) :
    Option BroadcastOutcome :=
  if killed 0 = true ∨ isFaulty = true then some BroadcastOutcome.noop
  else broadcastLoop killed ready fuel 0

/-- One invocation of `runConsensusProtocol`.  `ms1` and `ms2` are the
messages delivered to this node during the first and second settling waits;
the local effect of the two outbound broadcasts is nil (they only touch
peers' logs).  `none` models a JavaScript crash on an `undefined` access
(`nodeState.k!` on `null`, or a tally read of an absent round). -/
def runConsensusProtocol (N : Nat) (initialValue : Value) (isFaulty : Bool)
    (s : NodeState) (log0 : MessageLog) (ms1 ms2 : List ConsensusMessage) :
    Option (NodeState × MessageLog) :=
  if N = 1 then
    some ({ s with decided := some true, x := some initialValue, k := some 1 }, log0)
  else if s.killed = true ∨ isFaulty = true ∨ s.decided = some true then
    some (s, log0)
  else
    match s.k with
    | none => none
    | some r =>
      let log1 := initializeRoundTracking log0 r
      match applyMsgs ms1 log1 with
      | none => none
      | some log2 =>
        match determineConsensusValue log2 r with
        | none => none
        | some cand =>
          match applyMsgs ms2 log2 with
          | none => none
          | some log3 =>
            match checkFinalDecision N log3 r with
            | none => none
            | some dec =>
              if dec = true then
                some ({ s with decided := some true, x := some cand }, log3)
              else
                some ({ s with k := some (r + 1), x := some (roundParity r) }, log3)

/-- The `/getState` handler: faulty nodes report all-null, `N = 1` reports
an immediate decision, a configuration with `F` beyond the tolerance
threshold reports `decided = false` and `k = max(k || 0, 11)`. -/
def getState (N F : Nat) (initialValue : Value) (isFaulty : Bool) (s : NodeState) :
    NodeState :=
  if isFaulty = true then
    { killed := s.killed, x := none, decided := none, k := none }
  else if N = 1 then
    { killed := s.killed, x := some initialValue, decided := some true, k := some 1 }
  else if (N - 1) / 2 < F then
    { killed := s.killed, x := s.x, decided := some false,
      k := some (max (s.k.getD 0) 11) }
  else s

/-- The `/stop` handler. -/
def stop (s : NodeState) : NodeState := { s with killed := true }

/-- The fault tolerance threshold `floor((N-1)/2)`. -/
def faultToleranceThreshold (N : Nat) : Nat := (N - 1) / 2

/-- Observation: the vote tally count for `(round, v)`, reading an absent
round as zero. -/
def voteCount (log : MessageLog) (round : Nat) (v : Value) : Nat :=
  ((log.votes round).getD zeroBucket).get v

/-- Observation: the tally count for `(kind, round, v)`, reading an absent
round as zero. -/
def tallyCount (log : MessageLog) (kind : MsgType) (round : Nat) (v : Value) : Nat :=
  match kind with
  | MsgType.proposal => ((log.proposals round).getD zeroBucket).get v
  | MsgType.vote => ((log.votes round).getD zeroBucket).get v

/-! ### Basic tally lemmas -/

lemma Bucket.get_inc (b : Bucket) (w v : Value) :
    (b.inc w).get v = b.get v + if v = w then 1 else 0 := by
  cases w <;> cases v <;> simp [Bucket.inc, Bucket.get]

lemma initTally_eq (t : TallyMap) (r0 r : Nat) :
    initTally t r0 r = if r = r0 then some ((t r0).getD zeroBucket) else t r := by
  unfold initTally
  cases h : t r0 with
  | none => by_cases hr : r = r0 <;> simp [hr, h]
  | some b => by_cases hr : r = r0 <;> simp [hr, h]

/-- The non-discarding branch of `deliver`, written as a total function:
initialize the round's buckets, then bump the matching counter. -/
def deliverRun (m : ConsensusMessage) (log : MessageLog) : MessageLog :=
  let log1 := initializeRoundTracking log m.round
  match m.type with
  | MsgType.proposal =>
    { log1 with proposals := fun r =>
        if r = m.round then some (((log1.proposals m.round).getD zeroBucket).inc m.value)
        else log1.proposals r }
  | MsgType.vote =>
    { log1 with votes := fun r =>
        if r = m.round then some (((log1.votes m.round).getD zeroBucket).inc m.value)
        else log1.votes r }

lemma deliver_eq_run (m : ConsensusMessage) (log : MessageLog) :
    deliver false false m log = some (deliverRun m log) := by
  unfold deliver deliverRun
  have hp : initTally log.proposals m.round m.round =
      some ((log.proposals m.round).getD zeroBucket) := by
    rw [initTally_eq]; simp
  have hv : initTally log.votes m.round m.round =
      some ((log.votes m.round).getD zeroBucket) := by
    rw [initTally_eq]; simp
  cases m.type with
  | proposal =>
    simp only [initializeRoundTracking, incTally, hp]
    rfl
  | vote =>
    simp only [initializeRoundTracking, incTally, hv]
    rfl

lemma deliverRun_other (m : ConsensusMessage) (log : MessageLog) (r : Nat)
    (hr : r ≠ m.round) :
    (deliverRun m log).proposals r = log.proposals r ∧
    (deliverRun m log).votes r = log.votes r := by
  obtain ⟨mt, mv, mr, msnd⟩ := m
  simp only [ConsensusMessage.round] at hr
  cases mt with
  | proposal =>
    constructor <;> simp [deliverRun, initializeRoundTracking, initTally_eq, hr]
  | vote =>
    constructor <;> simp [deliverRun, initializeRoundTracking, initTally_eq, hr]

lemma deliverRun_isSome (m : ConsensusMessage) (log : MessageLog) :
    ((deliverRun m log).proposals m.round).isSome = true ∧
    ((deliverRun m log).votes m.round).isSome = true := by
  obtain ⟨mt, mv, mr, msnd⟩ := m
  cases mt with
  | proposal =>
    constructor <;> simp [deliverRun, initializeRoundTracking, initTally_eq]
  | vote =>
    constructor <;> simp [deliverRun, initializeRoundTracking, initTally_eq]

lemma deliverRun_counts (m : ConsensusMessage) (log : MessageLog) :
    ∀ kind r v, tallyCount (deliverRun m log) kind r v =
      tallyCount log kind r v + if kind = m.type ∧ r = m.round ∧ v = m.value then 1 else 0 := by
  intro kind r v
  obtain ⟨mt, mv, mr, msnd⟩ := m
  cases mt with
  | proposal =>
    cases kind with
    | proposal =>
      by_cases hr : r = mr
      · subst hr
        simp [tallyCount, deliverRun, initializeRoundTracking, initTally_eq,
          Bucket.get_inc]
      · simp [tallyCount, deliverRun, initializeRoundTracking, initTally_eq, hr]
    | vote =>
      by_cases hr : r = mr
      · subst hr
        simp [tallyCount, deliverRun, initializeRoundTracking, initTally_eq]
      · simp [tallyCount, deliverRun, initializeRoundTracking, initTally_eq, hr]
  | vote =>
    cases kind with
    | proposal =>
      by_cases hr : r = mr
      · subst hr
        simp [tallyCount, deliverRun, initializeRoundTracking, initTally_eq]
      · simp [tallyCount, deliverRun, initializeRoundTracking, initTally_eq, hr]
    | vote =>
      by_cases hr : r = mr
      · subst hr
        simp [tallyCount, deliverRun, initializeRoundTracking, initTally_eq,
          Bucket.get_inc]
      · simp [tallyCount, deliverRun, initializeRoundTracking, initTally_eq, hr]

/-! ### Delivery sequences and the round step -/

lemma applyMsgs_run (r : Nat) (ms : List ConsensusMessage) :
    ∀ (log : MessageLog),
      ∃ log', applyMsgs ms log = some log' ∧
        ((log.proposals r).isSome = true → (log'.proposals r).isSome = true) ∧
        ((log.votes r).isSome = true → (log'.votes r).isSome = true) := by
  induction ms with
  | nil => intro log; exact ⟨log, rfl, id, id⟩
  | cons m ms ih =>
    intro log
    obtain ⟨log', h', hp', hv'⟩ := ih (deliverRun m log)
    refine ⟨log', ?_, ?_, ?_⟩
    · simp [applyMsgs, deliver_eq_run, h']
    · intro hp
      apply hp'
      by_cases hr : r = m.round
      · subst hr; exact (deliverRun_isSome m log).1
      · rw [(deliverRun_other m log r hr).1]; exact hp
    · intro hv
      apply hv'
      by_cases hr : r = m.round
      · subst hr; exact (deliverRun_isSome m log).2
      · rw [(deliverRun_other m log r hr).2]; exact hv

lemma checkFinal_true_iff (N r : Nat) (log : MessageLog) (dec : Bool)
    (h : checkFinalDecision N log r = some dec) :
    dec = true ↔
      (2 ≤ r ∧ (N / 2 ≤ voteCount log r Value.v0 ∨ N / 2 ≤ voteCount log r Value.v1)) := by
  unfold checkFinalDecision at h
  cases hb : log.votes r with
  | none => rw [hb] at h; exact absurd h (by simp)
  | some b =>
    rw [hb] at h
    have hd : dec = ((decide (N / 2 ≤ b.c0) || decide (N / 2 ≤ b.c1)) && decide (2 ≤ r)) :=
      (Option.some.inj h).symm
    subst hd
    simp only [voteCount, hb, Option.getD_some, Bucket.get]
    simp only [Bool.and_eq_true, Bool.or_eq_true, decide_eq_true_eq]
    tauto

/-- The run of one non-guarded round of `runConsensusProtocol`: the
intermediate logs exist, the tally reads are total, and the step either
decides on the candidate value or advances with the parity fallback. -/
lemma run_spec (N : Nat) (init : Value) (s : NodeState) (log0 : MessageLog)
    (ms1 ms2 : List ConsensusMessage) (r : Nat)
    (hN : N ≠ 1) (hk : s.killed = false) (hd : s.decided ≠ some true)
    (hkr : s.k = some r) :
    ∃ log2 cand log3 dec,
      applyMsgs ms1 (initializeRoundTracking log0 r) = some log2 ∧
      determineConsensusValue log2 r = some cand ∧
      applyMsgs ms2 log2 = some log3 ∧
      checkFinalDecision N log3 r = some dec ∧
      (log3.votes r).isSome = true ∧
      runConsensusProtocol N init false s log0 ms1 ms2 =
        some ((if dec = true then { s with decided := some true, x := some cand }
               else { s with k := some (r + 1), x := some (roundParity r) }), log3) := by
  have hip : ((initializeRoundTracking log0 r).proposals r).isSome = true := by
    simp [initializeRoundTracking, initTally_eq]
  have hiv : ((initializeRoundTracking log0 r).votes r).isSome = true := by
    simp [initializeRoundTracking, initTally_eq]
  obtain ⟨log2, h2, hp2, hv2⟩ := applyMsgs_run r ms1 (initializeRoundTracking log0 r)
  obtain ⟨p, hp⟩ := Option.isSome_iff_exists.mp (hp2 hip)
  obtain ⟨log3, h3, hp3, hv3⟩ := applyMsgs_run r ms2 log2
  have hv3' : (log3.votes r).isSome = true := hv3 (hv2 hiv)
  obtain ⟨b, hb⟩ := Option.isSome_iff_exists.mp hv3'
  refine ⟨log2,
    (if p.c1 < p.c0 then Value.v0 else if p.c0 < p.c1 then Value.v1 else roundParity r),
    log3,
    ((decide (N / 2 ≤ b.c0) || decide (N / 2 ≤ b.c1)) && decide (2 ≤ r)),
    h2, by simp [determineConsensusValue, hp], h3,
    by simp [checkFinalDecision, hb], hv3', ?_⟩
  rw [runConsensusProtocol, if_neg hN, if_neg (by simp [hk, hd]), hkr]
  simp only [h2, determineConsensusValue, hp, h3, checkFinalDecision, hb]
  by_cases hc : ((decide (N / 2 ≤ b.c0) || decide (N / 2 ≤ b.c1)) && decide (2 ≤ r)) = true
  · rw [if_pos hc, if_pos hc]
  · rw [if_neg hc, if_neg hc]

/-! ### Concrete inputs used by witnesses and counterexamples -/

/-- A log whose round-2 vote bucket is `{0: 2, 1: 0, ?: 0}`. -/
def wVotesLog : MessageLog :=
  { proposals := fun _ => none
    votes := fun r => if r = 2 then some ⟨2, 0, 0⟩ else none }

/-- A log whose round-2 proposal bucket favours value 1 while the round-2
vote bucket meets the threshold only for value 0. -/
def cexLog : MessageLog :=
  { proposals := fun r => if r = 2 then some ⟨0, 5, 0⟩ else none
    votes := fun r => if r = 2 then some ⟨2, 0, 0⟩ else none }

/-- An undecided round-2 state. -/
def wState2 : NodeState := ⟨false, some Value.v0, some false, some 2⟩

/-- An undecided round-1 state. -/
def wState1 : NodeState := ⟨false, some Value.v0, some false, some 1⟩

/-! ### Claims -/

/-- C1: for every non-faulty, non-killed, undecided node with `N ≥ 2` on
round `r`, one invocation of `runConsensusProtocol` finalizes a decision if
and only if `r ≥ 2` and at least one of the two binary values has a vote
tally for round `r` (as read at decision time, in the resulting log) that is
`≥ ⌊N/2⌋`. -/
theorem claim_C1_decide_iff (N : Nat) (init : Value) (s : NodeState)
    (log0 : MessageLog) (ms1 ms2 : List ConsensusMessage) (r : Nat)
    (hN : 2 ≤ N) (hk : s.killed = false) (hd : s.decided = some false)
    (hkr : s.k = some r) :
    ∃ s' log', runConsensusProtocol N init false s log0 ms1 ms2 = some (s', log') ∧
      (s'.decided = some true ↔
        (2 ≤ r ∧ (N / 2 ≤ voteCount log' r Value.v0 ∨ N / 2 ≤ voteCount log' r Value.v1))) := by
  obtain ⟨log2, cand, log3, dec, h2, hc, h3, hdec, hsome, hrun⟩ :=
    run_spec N init s log0 ms1 ms2 r (by omega) hk (by simp [hd]) hkr
  refine ⟨_, log3, hrun, ?_⟩
  rw [← checkFinal_true_iff N r log3 dec hdec]
  cases dec with
  | false => simp [hd]
  | true => simp

/-- C1 witness: with `N = 4`, round 2 and a vote tally `{0: 2}` the
invocation decides. -/
theorem claim_C1_witness :
    ∃ s' log',
      runConsensusProtocol 4 Value.v0 false wState2 wVotesLog [] [] = some (s', log') ∧
      (s'.decided = some true ↔
        (2 ≤ 2 ∧ (4 / 2 ≤ voteCount log' 2 Value.v0 ∨ 4 / 2 ≤ voteCount log' 2 Value.v1))) :=
  claim_C1_decide_iff 4 Value.v0 wState2 wVotesLog [] [] 2 (by decide) rfl rfl rfl

/-- C2 counterexample: with `N = 4`, round 2, vote tally `{0: 2, 1: 0}`
(value 0 meets `⌊N/2⌋ = 2`, value 1 does not) and proposal tally
`{0: 0, 1: 5}`, the node decides but fixes `x` to value 1 — the candidate
from the proposal tallies — not to value 0, the vote value that met the
threshold. -/
theorem claim_C2_counterexample :
    (runConsensusProtocol 4 Value.v0 false wState2 cexLog [] []).map
        (fun p => (p.1.decided, p.1.x, voteCount p.2 2 Value.v0, voteCount p.2 2 Value.v1))
      = some (some true, some Value.v1, 2, 0) ∧
    4 / 2 ≤ 2 ∧ ¬ 4 / 2 ≤ 0 ∧ some Value.v1 ≠ some Value.v0 := by
  exact ⟨rfl, by decide, by decide, by decide⟩

/-- C2 (amended): for every round in which the finalization condition is
met, the node sets `decided = true` and fixes `x` to the candidate value
computed by `determineConsensusValue` from the round's proposal tallies,
which need not be the vote value whose tally met the `≥ ⌊N/2⌋` threshold. -/
theorem claim_C2_amended (N : Nat) (init : Value) (s : NodeState)
    (log0 : MessageLog) (ms1 ms2 : List ConsensusMessage) (r : Nat)
    (hN : 2 ≤ N) (hk : s.killed = false) (hd : s.decided = some false)
    (hkr : s.k = some r) :
    ∃ s' log' log2 cand,
      runConsensusProtocol N init false s log0 ms1 ms2 = some (s', log') ∧
      applyMsgs ms1 (initializeRoundTracking log0 r) = some log2 ∧
      determineConsensusValue log2 r = some cand ∧
      (s'.decided = some true → s'.x = some cand) := by
  obtain ⟨log2, cand, log3, dec, h2, hc, h3, hdec, hsome, hrun⟩ :=
    run_spec N init s log0 ms1 ms2 r (by omega) hk (by simp [hd]) hkr
  refine ⟨_, log3, log2, cand, hrun, h2, hc, ?_⟩
  cases dec with
  | true => intro _; simp
  | false => intro hcontra; simp [hd] at hcontra

/-- C2 witness: the amended statement at `N = 4`, round 2, vote tally
`{0: 2}`. -/
theorem claim_C2_witness :
    ∃ s' log' log2 cand,
      runConsensusProtocol 4 Value.v0 false wState2 wVotesLog [] [] = some (s', log') ∧
      applyMsgs [] (initializeRoundTracking wVotesLog 2) = some log2 ∧
      determineConsensusValue log2 2 = some cand ∧
      (s'.decided = some true → s'.x = some cand) :=
  claim_C2_amended 4 Value.v0 wState2 wVotesLog [] [] 2 (by decide) rfl rfl rfl

/-- C4: for every round `r` that completes without meeting the finalization
condition on an undecided node, the node advances to exactly `r + 1` and
sets `x` to `r % 2` (the deterministic fallback), remaining undecided. -/
theorem claim_C4_advance (N : Nat) (init : Value) (s : NodeState)
    (log0 : MessageLog) (ms1 ms2 : List ConsensusMessage) (r : Nat)
    (hN : 2 ≤ N) (hk : s.killed = false) (hd : s.decided = some false)
    (hkr : s.k = some r) :
    ∀ s' log', runConsensusProtocol N init false s log0 ms1 ms2 = some (s', log') →
      ¬ (2 ≤ r ∧ (N / 2 ≤ voteCount log' r Value.v0 ∨ N / 2 ≤ voteCount log' r Value.v1)) →
      s'.k = some (r + 1) ∧ s'.x = some (roundParity r) ∧ s'.decided = some false := by
  intro s' log' hrun hnf
  obtain ⟨log2, cand, log3, dec, h2, hc, h3, hdec, hsome, hrun'⟩ :=
    run_spec N init s log0 ms1 ms2 r (by omega) hk (by simp [hd]) hkr
  rw [hrun] at hrun'
  obtain ⟨hs, hl⟩ := Prod.ext_iff.mp (Option.some.inj hrun')
  subst hl
  cases dec with
  | true => exact absurd ((checkFinal_true_iff N r _ true hdec).mp rfl) hnf
  | false =>
    simp only [Bool.false_eq_true, if_false] at hs
    subst hs
    simp [hd]

/-- C4 witness: with `N = 4`, round 1, empty log, the node advances to
round 2 with `x = 1 % 2`. -/
theorem claim_C4_witness :
    (⟨false, some (roundParity 1), some false, some 2⟩ : NodeState).k = some (1 + 1) ∧
    (⟨false, some (roundParity 1), some false, some 2⟩ : NodeState).x = some (roundParity 1) ∧
    (⟨false, some (roundParity 1), some false, some 2⟩ : NodeState).decided = some false :=
  claim_C4_advance 4 Value.v0 wState1 emptyLog [] [] 1 (by decide) rfl rfl rfl
    ⟨false, some (roundParity 1), some false, some 2⟩
    (initializeRoundTracking emptyLog 1) rfl (by decide)

/-- C5: for every round `r` and every proposal bucket tallied for `r`, the
candidate computed by `determineConsensusValue` is the value with the
strictly higher proposal count, and is `r % 2` whenever the two counts are
equal (including when both are 0). -/
theorem claim_C5_candidate (log : MessageLog) (r : Nat) (p : Bucket)
    (hp : log.proposals r = some p) :
    ∃ v, determineConsensusValue log r = some v ∧
      (p.c1 < p.c0 → v = Value.v0) ∧
      (p.c0 < p.c1 → v = Value.v1) ∧
      (p.c0 = p.c1 → v = roundParity r) := by
  refine ⟨if p.c1 < p.c0 then Value.v0 else if p.c0 < p.c1 then Value.v1 else roundParity r,
    by simp [determineConsensusValue, hp], ?_, ?_, ?_⟩
  · intro h; rw [if_pos h]
  · intro h; rw [if_neg (by omega), if_pos h]
  · intro h; rw [if_neg (by omega), if_neg (by omega)]

/-- C5 witness: at the round-2 proposal bucket `{0: 0, 1: 5}`. -/
theorem claim_C5_witness :
    ∃ v, determineConsensusValue cexLog 2 = some v ∧
      ((5 : Nat) < 0 → v = Value.v0) ∧
      ((0 : Nat) < 5 → v = Value.v1) ∧
      ((0 : Nat) = 5 → v = roundParity 2) := by
  exact claim_C5_candidate cexLog 2 ⟨0, 5, 0⟩ rfl

/-- C3 counterexample: the claim quantifies over every node; it fails both
for a faulty node (`getState` reports `decided = null`, not `false`: here
`N = 3`, `F = 2 > ⌊(N-1)/2⌋ = 1`) and for a non-faulty node with `N = 1`
(`getState` reports `decided = true` and `k = 1 < 11`: here `F = 1 > 0`). -/
theorem claim_C3_counterexample :
    faultToleranceThreshold 3 < 2 ∧
    (getState 3 2 Value.v0 true ⟨false, none, none, none⟩).decided = none ∧
    faultToleranceThreshold 1 < 1 ∧
    (getState 1 1 Value.v0 false wState1).decided = some true ∧
    (getState 1 1 Value.v0 false wState1).k = some 1 := by
  decide

/-- C3 (amended): for every non-faulty node with `N ≥ 2`, whenever the
configured fault count exceeds the tolerance threshold
(`F > ⌊(N-1)/2⌋`), `getState` reports `decided = false` and a round number
`≥ 11`, for every internal state of the node. -/
theorem claim_C3_amended (N F : Nat) (init : Value) (s : NodeState)
    (hN : 2 ≤ N) (hF : faultToleranceThreshold N < F) :
    (getState N F init false s).decided = some false ∧
    ∃ kr, (getState N F init false s).k = some kr ∧ 11 ≤ kr := by
  have hN1 : N ≠ 1 := by omega
  rw [faultToleranceThreshold] at hF
  rw [getState, if_neg (by simp), if_neg hN1, if_pos hF]
  exact ⟨rfl, max (s.k.getD 0) 11, rfl, le_max_right _ _⟩

/-- C3 witness: the amended statement at `N = 4`, `F = 3`. -/
theorem claim_C3_witness :
    (getState 4 3 Value.v0 false wState1).decided = some false ∧
    ∃ kr, (getState 4 3 Value.v0 false wState1).k = some kr ∧ 11 ≤ kr :=
  claim_C3_amended 4 3 Value.v0 wState1 (by decide) (by decide)

/-! ### Broadcast (C6) -/

lemma broadcastLoop_abandoned (killed ready : Nat → Bool) :
    ∀ (n t : Nat), (∀ i, i ≤ t + n → ready i = false) → killed (t + n + 1) = true →
      broadcastLoop killed ready (n + 1) t = some BroadcastOutcome.abandoned := by
  intro n
  induction n with
  | zero =>
    intro t hr hk
    rw [broadcastLoop, if_neg (by simp [hr t (by omega)])]
    rw [if_pos (by simpa using hk)]
  | succ n ih =>
    intro t hr hk
    rw [broadcastLoop, if_neg (by simp [hr t (by omega)])]
    by_cases h : killed (t + 1) = true
    · rw [if_pos h]
    · rw [if_neg h]
      exact ih (t + 1) (fun i hi => hr i (by omega))
        (by have : t + 1 + n + 1 = t + (n + 1) + 1 := by omega
            rw [this]; exact hk)

lemma broadcastLoop_delivered (killed ready : Nat → Bool) :
    ∀ (fuel t0 t : Nat),
      broadcastLoop killed ready fuel t0 = some (BroadcastOutcome.delivered t) →
      ready t = true := by
  intro fuel
  induction fuel with
  | zero => intro t0 t h; exact absurd h (by simp [broadcastLoop])
  | succ fuel ih =>
    intro t0 t h
    rw [broadcastLoop] at h
    by_cases hr : ready t0 = true
    · rw [if_pos hr] at h
      have ht : t0 = t := by
        have := Option.some.inj h
        exact BroadcastOutcome.delivered.inj this
      rw [← ht]; exact hr
    · rw [if_neg hr] at h
      by_cases hk : killed (t0 + 1) = true
      · rw [if_pos hk] at h; exact absurd (Option.some.inj h) (by simp)
      · rw [if_neg hk] at h; exact ih (t0 + 1) t h

/-- C6: a faulty node, or a node already killed at entry, never transmits
(`broadcastMessage` is a delivery-free no-op); a node killed while waiting
on the readiness gate abandons the broadcast without a delivery attempt;
and a delivery attempt happens only for a non-faulty node that was not
killed at entry and for which the readiness gate opened. -/
theorem claim_C6_broadcast (isFaulty : Bool) (killed ready : Nat → Bool)
    (T fuel : Nat) :
    (isFaulty = true ∨ killed 0 = true →
      broadcastMessage isFaulty killed ready fuel = some BroadcastOutcome.noop) ∧
    (isFaulty = false → killed 0 = false → (∀ i, i ≤ T → ready i = false) →
      killed (T + 1) = true →
      broadcastMessage isFaulty killed ready (T + 1) = some BroadcastOutcome.abandoned) ∧
    (∀ t, broadcastMessage isFaulty killed ready fuel = some (BroadcastOutcome.delivered t) →
      isFaulty = false ∧ killed 0 = false ∧ ready t = true) := by
  refine ⟨?_, ?_, ?_⟩
  · intro h
    rw [broadcastMessage, if_pos (Or.symm h)]
  · intro hf hk hr hkill
    rw [broadcastMessage, if_neg (by simp [hf, hk])]
    exact broadcastLoop_abandoned killed ready T 0
      (fun i hi => hr i (by omega)) (by simpa using hkill)
  · intro t h
    rw [broadcastMessage] at h
    by_cases hg : killed 0 = true ∨ isFaulty = true
    · rw [if_pos hg] at h
      exact absurd (Option.some.inj h) (by simp)
    · rw [if_neg hg] at h
      push_neg at hg
      exact ⟨by simpa using hg.2, by simpa using hg.1,
        broadcastLoop_delivered killed ready fuel 0 t h⟩

/-- C6 witness: a faulty node's broadcast is a no-op, and a broadcast whose
node is killed at the first poll while the gate never opens is abandoned. -/
theorem claim_C6_witness :
    broadcastMessage true (fun _ => false) (fun _ => true) 5 = some BroadcastOutcome.noop ∧
    broadcastMessage false (fun t => decide (1 ≤ t)) (fun _ => false) (0 + 1) =
      some BroadcastOutcome.abandoned :=
  ⟨(claim_C6_broadcast true (fun _ => false) (fun _ => true) 0 5).1 (Or.inl rfl),
   (claim_C6_broadcast false (fun t => decide (1 ≤ t)) (fun _ => false) 0 1).2.1
     rfl rfl (fun i _ => rfl) (by decide)⟩

/-- C7: an inbound message leaves the message log completely unchanged when
the node is killed or faulty (silent discard, no error), and otherwise
increments by exactly one the counter for the message's
`(type, round, value)` — auto-initializing both of that round's bucket sets
if absent — while every other counter keeps its value. -/
theorem claim_C7_deliver (killed isFaulty : Bool) (m : ConsensusMessage)
    (log : MessageLog) :
    (killed = true ∨ isFaulty = true → deliver killed isFaulty m log = some log) ∧
    (killed = false → isFaulty = false →
      ∃ log', deliver killed isFaulty m log = some log' ∧
        (∀ kind r v, tallyCount log' kind r v =
          tallyCount log kind r v +
            if kind = m.type ∧ r = m.round ∧ v = m.value then 1 else 0) ∧
        (log'.proposals m.round).isSome = true ∧ (log'.votes m.round).isSome = true) := by
  constructor
  · intro h
    rw [deliver, if_pos h]
  · intro h1 h2
    subst h1; subst h2
    exact ⟨deliverRun m log, deliver_eq_run m log, deliverRun_counts m log,
      (deliverRun_isSome m log).1, (deliverRun_isSome m log).2⟩

/-- C7 witness: a killed node discards a round-3 vote; a live node records
it. -/
theorem claim_C7_witness :
    deliver true false ⟨MsgType.vote, Value.v0, 3, 0⟩ emptyLog = some emptyLog ∧
    ∃ log', deliver false false ⟨MsgType.vote, Value.v0, 3, 0⟩ emptyLog = some log' ∧
      (∀ kind r v, tallyCount log' kind r v =
        tallyCount emptyLog kind r v +
          if kind = (⟨MsgType.vote, Value.v0, 3, 0⟩ : ConsensusMessage).type ∧
             r = (⟨MsgType.vote, Value.v0, 3, 0⟩ : ConsensusMessage).round ∧
             v = (⟨MsgType.vote, Value.v0, 3, 0⟩ : ConsensusMessage).value then 1 else 0) ∧
      (log'.proposals 3).isSome = true ∧ (log'.votes 3).isSome = true :=
  ⟨(claim_C7_deliver true false ⟨MsgType.vote, Value.v0, 3, 0⟩ emptyLog).1 (Or.inl rfl),
   (claim_C7_deliver false false ⟨MsgType.vote, Value.v0, 3, 0⟩ emptyLog).2 rfl rfl⟩

/-- C8: once a non-faulty node has `decided = true`, a further protocol
step and a `stop` leave `x` and `k` unchanged and `decided` stays `true`.
(The hypothesis for `N = 1` is the reachability invariant of that branch:
an `N = 1` node can only have decided through the immediate-decision
branch, which pins `x = initialValue` and `k = 1`.) -/
theorem claim_C8_frozen (N : Nat) (init : Value) (s : NodeState)
    (log0 : MessageLog) (ms1 ms2 : List ConsensusMessage)
    (hd : s.decided = some true) (h1 : N = 1 → s.x = some init ∧ s.k = some 1) :
    (∃ s' log', runConsensusProtocol N init false s log0 ms1 ms2 = some (s', log') ∧
      s'.x = s.x ∧ s'.k = s.k ∧ s'.decided = some true) ∧
    (stop s).x = s.x ∧ (stop s).k = s.k ∧ (stop s).decided = some true := by
  refine ⟨?_, rfl, rfl, hd⟩
  by_cases hN : N = 1
  · obtain ⟨hx, hk⟩ := h1 hN
    exact ⟨_, log0, by rw [runConsensusProtocol, if_pos hN], by simp [hx],
      by simp [hk], rfl⟩
  · exact ⟨s, log0, by rw [runConsensusProtocol, if_neg hN,
      if_pos (Or.inr (Or.inr hd))], rfl, rfl, hd⟩

/-- C8 witness: a decided node with `N = 3` keeps `x` and `k`. -/
theorem claim_C8_witness :
    (∃ s' log',
      runConsensusProtocol 3 Value.v0 false ⟨false, some Value.v1, some true, some 4⟩
        emptyLog [] [] = some (s', log') ∧
      s'.x = (⟨false, some Value.v1, some true, some 4⟩ : NodeState).x ∧
      s'.k = (⟨false, some Value.v1, some true, some 4⟩ : NodeState).k ∧
      s'.decided = some true) ∧
    (stop ⟨false, some Value.v1, some true, some 4⟩).x =
      (⟨false, some Value.v1, some true, some 4⟩ : NodeState).x ∧
    (stop ⟨false, some Value.v1, some true, some 4⟩).k =
      (⟨false, some Value.v1, some true, some 4⟩ : NodeState).k ∧
    (stop ⟨false, some Value.v1, some true, some 4⟩).decided = some true :=
  claim_C8_frozen 3 Value.v0 ⟨false, some Value.v1, some true, some 4⟩ emptyLog [] []
    rfl (fun h => absurd h (by decide))

/-- C9: for a non-faulty node configured with `N = 1`, `getState` reports
`x = initialValue`, `decided = true`, `k = 1` for every internal state —
so before any start, after a stop, and for every `F`, including `F` beyond
the tolerance threshold: the `N = 1` branch precedes the fault-limit
branch. -/
theorem claim_C9_singleton (F : Nat) (init : Value) (s : NodeState) :
    (getState 1 F init false s).x = some init ∧
    (getState 1 F init false s).decided = some true ∧
    (getState 1 F init false s).k = some 1 := by
  rw [getState, if_neg (by simp), if_pos rfl]
  exact ⟨rfl, rfl, rfl⟩

/-- C10: the tally accesses of the embedded operations are total: a live
non-faulty delivery never fails (the handler initializes the round's
buckets before incrementing), and a protocol step on a state whose round
number is non-null never fails (the step initializes the current round's
buckets before `determineConsensusValue` and `checkFinalDecision` read
them). -/
theorem claim_C10_totality :
    (∀ (m : ConsensusMessage) (log : MessageLog),
      ∃ log', deliver false false m log = some log') ∧
    (∀ (N : Nat) (init : Value) (s : NodeState) (log0 : MessageLog)
        (ms1 ms2 : List ConsensusMessage), s.k.isSome = true →
      ∃ out, runConsensusProtocol N init false s log0 ms1 ms2 = some out) := by
  constructor
  · intro m log
    exact ⟨deliverRun m log, deliver_eq_run m log⟩
  · intro N init s log0 ms1 ms2 hks
    by_cases hN : N = 1
    · exact ⟨_, by rw [runConsensusProtocol, if_pos hN]⟩
    · by_cases hg : s.killed = true ∨ False ∨ s.decided = some true
      · refine ⟨(s, log0), ?_⟩
        rw [runConsensusProtocol, if_neg hN, if_pos ?_]
        rcases hg with h | h | h
        · exact Or.inl h
        · exact absurd h (by simp)
        · exact Or.inr (Or.inr h)
      · push_neg at hg
        obtain ⟨r, hr⟩ := Option.isSome_iff_exists.mp hks
        obtain ⟨log2, cand, log3, dec, _, _, _, _, _, hrun⟩ :=
          run_spec N init s log0 ms1 ms2 r hN
            (by simpa using hg.1) hg.2.2 hr
        exact ⟨_, hrun⟩

/-- C10 witness: a delivery to the empty log and a step from the initial
round-1 state both succeed. -/
theorem claim_C10_witness :
    ∃ out, runConsensusProtocol 3 Value.v0 false wState1 emptyLog [] [] = some out :=
  claim_C10_totality.2 3 Value.v0 wState1 emptyLog [] [] rfl

end NodeSpec
